import Mathlib

/-!
Shallow embedding of the layout-and-hit-testing core of the `xui` repository
(`src/core/src/constraints.rs`, `src/core/src/rendering/mod.rs`,
`src/core/src/rendering/render_box.rs`) together with theorems settling the
stated properties of that core.

The source captures the trait/interface surface of the protocol.  Value types
and default method bodies present in the source are embedded directly.
Operations that the source only declares (trait methods without a body, and
the pipeline owner, which the source documents but does not materialize) are
modelled from the specification; each such definition carries a doc comment
beginning with "Modelled from the spec:".
-/

namespace XUI

/-! ## Constraint model, from `src/core/src/constraints.rs`

The source declares `BoxConstraints` and `SliverConstraints` as fieldless
structs, and `SliverConstraints::as_box_constrains(&self) -> BoxConstraints`
whose body produces the (unique) `BoxConstraints` value. -/

/-- The `BoxConstraints` struct of `constraints.rs` (line 6): it declares no
fields. -/
structure BoxConstraints where
deriving DecidableEq

/-- The `SliverConstraints` struct of `constraints.rs` (line 11): it declares
no fields. -/
structure SliverConstraints where
deriving DecidableEq

/-- The projection `SliverConstraints::as_box_constrains` of `constraints.rs`
(line 16): it takes the receiver by shared reference (so the receiver is left
unchanged; the embedding is a pure function) and its body constructs a
`BoxConstraints` value outright, consulting nothing that can fail. -/
def SliverConstraints.as_box_constrains (_ : SliverConstraints) : BoxConstraints :=
  {}

/-! ## Hit testing, from `src/core/src/rendering/render_box.rs`

The default body of `RenderBox::hit_test` (lines 32-39) reads, with the
receiver's pieces written out:

    if _size.contains(position) {
        if hitTestChildren(result, pos) || hitTestSelf(position) {
            result.add(BoxHitTestEntry(this, position));
            return true;
        }
    }

falling through (per the method's own doc comment, "Returns false if the hit
can continue to other objects below this one") returns `false`.  The
accumulator `result` is passed to the children's test and mutated in place;
the embedding threads it explicitly. -/

/-- A position in a node's local coordinate space (the `Offset` the source
takes from its geometry collaborator). -/
structure Offset where
  dx : Int
  dy : Int
deriving DecidableEq

/-- The `BoxHitTestEntry(this, position)` record appended by `hit_test`: the
identity of the node and the local position at the time of the hit. -/
structure BoxHitTestEntry where
  node : Nat
  position : Offset
deriving DecidableEq

/-- The ordered accumulator of hit-test entries (`BoxHitTestResult`). -/
abbrev BoxHitTestResult := List BoxHitTestEntry

/-- `result.add(entry)`: appends one entry to the accumulator. -/
def BoxHitTestResult.add (r : BoxHitTestResult) (e : BoxHitTestEntry) :
    BoxHitTestResult :=
  r ++ [e]

/-- One `RenderBox` node as `hit_test`'s default body consumes it: its
identity (`this`), the bounds test of its resolved size (`_size.contains`),
and its two override points.  `hitTestChildren` receives the accumulator and
may extend it; `hitTestSelf` is a pure predicate (default `false` in the
source, lines 51-53, as is `hit_test_children`, lines 76-78). -/
structure RenderBoxNode where
  id : Nat
  size_contains : Offset → Bool
  hitTestChildren : BoxHitTestResult → Offset → BoxHitTestResult × Bool
  hitTestSelf : Offset → Bool

/-- The default body of `RenderBox::hit_test` (`render_box.rs` lines 32-39),
threading the mutable accumulator explicitly and returning the appended-to
accumulator together with the boolean the body returns. -/
def hit_test (self : RenderBoxNode) (result : BoxHitTestResult) (pos : Offset) :
    BoxHitTestResult × Bool :=
  if self.size_contains pos then
    let rc := self.hitTestChildren result pos
    if rc.2 || self.hitTestSelf pos then
      (rc.1.add ⟨self.id, pos⟩, true)
    else
      (rc.1, false)
  else
    (result, false)

/-! ## Spec-modelled constraint values and layout

`RenderObject::perform_layout` (`rendering/mod.rs` line 85) and the resize
step it documents (`performResize`) are trait declarations without bodies, and
the source's `BoxConstraints` struct declares no fields; the definitions below
model the missing parts from the specification (spec sections 3, 4.1, 4.2). -/

/-- Modelled from the spec: a resolved size (width and height), the geometry a
node records once layout completes; the source has no size field on any node
type. -/
structure SSize where
  width : Nat
  height : Nat
deriving DecidableEq

/-- Modelled from the spec: "`BoxConstraints` carries independent min/max
width and min/max height" (spec section 4.1); the source struct declares no
fields. -/
structure SBoxConstraints where
  minWidth : Nat
  maxWidth : Nat
  minHeight : Nat
  maxHeight : Nat
deriving DecidableEq

/-- Well-formedness of constraints: "a constraint is always well-formed
(min ≤ max per axis)" (spec section 3). -/
def SBoxConstraints.isWellFormed (c : SBoxConstraints) : Bool :=
  decide (c.minWidth ≤ c.maxWidth) && decide (c.minHeight ≤ c.maxHeight)

/-- Whether a resolved size satisfies the constraints: "min ≤ size ≤ max per
axis" (spec sections 3 and 8). -/
def SBoxConstraints.isSatisfiedBy (c : SBoxConstraints) (s : SSize) : Bool :=
  decide (c.minWidth ≤ s.width) && decide (s.width ≤ c.maxWidth) &&
    decide (c.minHeight ≤ s.height) && decide (s.height ≤ c.maxHeight)

/-- Clamping a desired size into the admissible range of a constraint, the
sizing rule the modelled layout uses to resolve a node's own size. -/
def SBoxConstraints.constrain (c : SBoxConstraints) (s : SSize) : SSize :=
  ⟨max c.minWidth (min c.maxWidth s.width), max c.minHeight (min c.maxHeight s.height)⟩

/-- Modelled from the spec: the sub-constraints a parent computes for a child
(spec section 4.2, "passing each child the sub-constraints it computes for
that child") — the parent loosens its own constraints, keeping the maxima. -/
def childConstraints (c : SBoxConstraints) : SBoxConstraints :=
  ⟨0, c.maxWidth, 0, c.maxHeight⟩

/-- Modelled from the spec: a render node for the layout pass — its
`sized_by_parent` classification, a preferred (content) size, its currently
recorded resolved size, and the children it exclusively owns (spec
section 3, "Render node"). -/
inductive RTree where
  | mk (sizedByParent : Bool) (preferred : SSize) (size : SSize) (children : List RTree)

/-- The node's `sized_by_parent()` classification. -/
def RTree.sizedByParent : RTree → Bool
  | .mk s _ _ _ => s

/-- The node's preferred (content) size. -/
def RTree.preferred : RTree → SSize
  | .mk _ p _ _ => p

/-- The node's currently recorded resolved size. -/
def RTree.size : RTree → SSize
  | .mk _ _ s _ => s

/-- The node's children. -/
def RTree.children : RTree → List RTree
  | .mk _ _ _ c => c

/-- Modelled from the spec: `perform_layout(constraints)` (spec section 4.2;
the source, `rendering/mod.rs` line 85, declares the method without a body).
Per the postcondition it must satisfy: when `sized_by_parent()` is false the
node resolves its own size (here by clamping its preferred size into the
constraints) and lays out every child it owns, handing each the
sub-constraints computed for it; when `sized_by_parent()` is true the step
does not change the node's own size (that is the separate resize step's
work), and it still recurses into the children. -/
def perform_layout : RTree → SBoxConstraints → RTree
  | .mk sbp pref sz children, c =>
      .mk sbp pref (if sbp then sz else c.constrain pref)
        (children.attach.map fun ch => perform_layout ch.1 (childConstraints c))
termination_by t _ => sizeOf t
decreasing_by
  have := List.sizeOf_lt_of_mem ch.2
  simp only [RTree.mk.sizeOf_spec]
  omega

/-- Modelled from the spec: the size the separate resize step resolves, "keyed
only on constraints" (spec section 4.2) — a function of the constraints alone;
the model fills the admissible range. -/
def resizeSize (c : SBoxConstraints) : SSize :=
  ⟨c.maxWidth, c.maxHeight⟩

/-- Modelled from the spec: the resize step for a `sized_by_parent` node — it
records `resizeSize c` as the node's size and touches nothing else. -/
def performResize : RTree → SBoxConstraints → RTree
  | .mk sbp pref _ children, c => .mk sbp pref (resizeSize c) children

/-- Modelled from the spec: the sanctioned layout entry point.  The source's
own doc comment on `perform_layout` says "Do not call this function directly:
call [layout] instead"; the scheduler's `layout` resizes a `sized_by_parent`
node first (the resize step keyed only on constraints) and then runs
`perform_layout`. -/
def layout (n : RTree) (c : SBoxConstraints) : RTree :=
  perform_layout (if n.sizedByParent then performResize n c else n) c

/-! ## Spec-modelled sliver constraints

The source's `SliverConstraints` struct declares no fields; the model below
follows spec section 4.1: "`SliverConstraints` carries a scroll-axis extent
plus cross-axis box constraints", with the cross-axis box constraints being
the box-relevant part. -/

/-- Modelled from the spec: `SliverConstraints` with its fields — a
scroll-axis extent plus cross-axis box constraints (spec section 4.1); the
source struct declares no fields. -/
structure SSliverConstraints where
  scrollExtent : Nat
  crossAxis : SBoxConstraints
deriving DecidableEq

/-- Modelled from the spec: the box projection of a sliver constraint,
"reducing a scroll-axis constraint to a plain box constraint" (spec
section 2) — it keeps the cross-axis box constraints, the box-relevant
fields. -/
def SSliverConstraints.asBoxConstraints (s : SSliverConstraints) : SBoxConstraints :=
  s.crossAxis

/-! ## Spec-modelled dirty marking and the pipeline owner

`RenderObject::mark_needs_layout` (`rendering/mod.rs` line 50) is declared
without a body, and the pipeline owner is documented but not materialized in
the source; the walk below follows its doc comment and spec section 4.2:
mark the node's layout information dirty, and either register the node with
the pipeline owner (if it is a relayout boundary) or defer to the parent;
a detached root with no boundary ancestor is the terminal case and is itself
marked dirty and registered. -/

/-- Modelled from the spec: a node as the dirty-propagation walk observes it —
a non-owning parent reference (an arena index), the computed relayout-boundary
classification, and the dirty-layout flag (spec section 3, "Render node"). -/
structure PNode where
  parent : Option Nat
  isRelayoutBoundary : Bool
  dirtyLayout : Bool
deriving DecidableEq

/-- Modelled from the spec: the tree arena plus the pipeline owner's
deduplicated dirty set of relayout-boundary nodes (spec section 3,
"Pipeline owner's dirty set"). -/
structure Pipeline where
  nodes : List PNode
  dirtySet : List Nat
deriving DecidableEq

/-- Deduplicated insertion into the pipeline owner's dirty set: "marking an
already-dirty node a second time is a no-op" (spec section 3). -/
def insertDirty (s : List Nat) (i : Nat) : List Nat :=
  if i ∈ s then s else i :: s

/-- Raise the dirty-layout flag of the node at index `i` of the arena. -/
def setNodeDirty (ns : List PNode) (i : Nat) : List PNode :=
  match ns[i]? with
  | some n => ns.set i { n with dirtyLayout := true }
  | none => ns

/-- Modelled from the spec: `mark_needs_layout()` on the node at index `i`
(spec section 4.2; the source, `rendering/mod.rs` line 50, declares the
method without a body).  It sets the node's dirty-layout flag; if the node is
a relayout boundary it is registered with the pipeline owner's dirty set,
otherwise the call propagates to the parent; a detached root is the terminal
case and is marked and registered itself.  The upward walk is measured by
explicit fuel. -/
def mark_needs_layout : Nat → Pipeline → Nat → Pipeline
  | 0, p, _ => p
  | fuel + 1, p, i =>
    match p.nodes[i]? with
    | none => p
    | some n =>
      match n.isRelayoutBoundary, n.parent with
      | false, some j => mark_needs_layout fuel ⟨setNodeDirty p.nodes i, p.dirtySet⟩ j
      | false, none => ⟨setNodeDirty p.nodes i, insertDirty p.dirtySet i⟩
      | true, _ => ⟨setNodeDirty p.nodes i, insertDirty p.dirtySet i⟩

/-- Calling `mark_needs_layout` on node `i` a number of times in sequence,
with no intervening layout flush. -/
def iterMark (fuel i : Nat) : Nat → Pipeline → Pipeline
  | 0, p => p
  | k + 1, p => mark_needs_layout fuel (iterMark fuel i k p) i

/-! ## The per-node operation alphabet

The protocol surface of `RenderObject` (`rendering/mod.rs`) as one step
function on a node's observable layout state, used to check the dirty-flag
state machine of spec section 4.3 and the repaint-boundary classification. -/

/-- Modelled from the spec: the observable layout state of one node — the
dirty-layout flag, the dirty-paint flag, and the recorded resolved size. -/
structure NodeLState where
  dirtyLayout : Bool
  dirtyPaint : Bool
  size : SSize
deriving DecidableEq

/-- The operations of the render-object protocol that can touch a node
between frames: dirty marking for layout and for paint, a
scheduler-invoked `perform_layout` carrying its constraints, the read-only
hit-test query, and the default (no-op) `handle_event`. -/
inductive RenderOp where
  | markNeedsLayoutOp
  | schedulerPerformLayout (c : SBoxConstraints)
  | markNeedsPaintOp
  | hitTestQuery (pos : Offset)
  | handleEventDefault
deriving DecidableEq

/-- Modelled from the spec: the effect of each protocol operation on one
node's observable layout state (spec sections 4.2 and 4.3).
`mark_needs_layout` raises the dirty-layout flag; a scheduler-invoked
`perform_layout` with well-formed constraints resolves the size and clears
the dirty-layout flag, and with ill-formed constraints is a contract
violation that performs no transition; paint marking touches only the paint
flag; hit testing is read-only; the default `handle_event` is a no-op
(`rendering/mod.rs` line 108). -/
def stepOp (s : NodeLState) : RenderOp → NodeLState
  | .markNeedsLayoutOp => { s with dirtyLayout := true }
  | .schedulerPerformLayout c =>
      if c.isWellFormed then
        { s with dirtyLayout := false, size := c.constrain s.size }
      else s
  | .markNeedsPaintOp => { s with dirtyPaint := true }
  | .hitTestQuery _ => s
  | .handleEventDefault => s

/-- A node's lifetime: any finite sequence of protocol operations applied in
order. -/
def stepOps (s : NodeLState) : List RenderOp → NodeLState
  | [] => s
  | op :: rest => stepOps (stepOp s op) rest

/-! ## The declared surface of `is_repaint_boundary` and `perform_layout` -/

/-- One concrete render-object kind's implementation choices for the
protocol's static surface.  `is_repaint_boundary` is declared in the source
without a receiver (`fn is_repaint_boundary() -> bool`, `rendering/mod.rs`
lines 102-104), so per kind it is a single boolean; its default value there
is `false`. -/
structure RenderObjectImpl where
  is_repaint_boundary : Bool := false

/-- A render-object kind that overrides nothing: every defaulted member keeps
the source's default body. -/
def defaultRenderObject : RenderObjectImpl := {}

/-- Dispatching `is_repaint_boundary` for a node of the given kind: the
declaration takes no receiver, so the node's state cannot be consulted. -/
def isRepaintBoundaryOf (impl : RenderObjectImpl) (_s : NodeLState) : Bool :=
  impl.is_repaint_boundary

/-- The node-observable fields named by the declared-surface reading of
`perform_layout`: the dirty-layout flag, the cached constraints of the last
layout, and the resolved size. -/
structure RenderNodeFields where
  dirtyLayout : Bool
  cachedConstraints : Option SBoxConstraints
  resolvedSize : Option SSize
deriving DecidableEq

/-- The call surface of `perform_layout` exactly as declared in the source:
`fn perform_layout(&self, constraints: &Self::Constraints)`
(`rendering/mod.rs` line 85) takes the receiver by shared reference and
returns nothing, so a call is embedded as producing the receiver's state —
necessarily the one passed in — together with the unit output. -/
def perform_layout_decl {C : Type} (n : RenderNodeFields) (_c : C) :
    RenderNodeFields × Unit :=
  (n, ())

/-- The call surface of `as_box_constrains` as declared
(`fn as_box_constrains(&self) -> BoxConstraints`): the receiver is taken by
shared reference, so a call is embedded as producing the receiver's state —
necessarily the one passed in — together with the projected value. -/
def as_box_constrains_call (s : SliverConstraints) :
    SliverConstraints × BoxConstraints :=
  (s, s.as_box_constrains)

/-! ## Helper lemmas -/

theorem list_set_self {α : Type} (l : List α) (i : Nat) (a : α)
    (h : l[i]? = some a) : l.set i a = l := by
  induction l generalizing i with
  | nil => simp at h
  | cons x xs ih =>
    cases i with
    | zero => simp at h; simp [h]
    | succ k => simp at h ⊢; exact ih k h

theorem dirty_absorb (n : PNode) (h : n.dirtyLayout = true) :
    { n with dirtyLayout := true } = n := by
  cases n; simp_all

theorem setNodeDirty_getElem (ns : List PNode) (i k : Nat) :
    (setNodeDirty ns i)[k]? =
      if k = i then (ns[i]?).map (fun n => { n with dirtyLayout := true })
      else ns[k]? := by
  unfold setNodeDirty
  cases h : ns[i]? with
  | none =>
    by_cases hk : k = i
    · subst hk; simp [h]
    · simp [hk]
  | some n =>
    have hi : i < ns.length := by
      by_contra hlen
      simp [List.getElem?_eq_none (Nat.le_of_not_lt hlen)] at h
    by_cases hk : k = i
    · subst hk; simp [List.getElem?_set_self, hi, h]
    · simp [List.getElem?_set_ne (fun he => hk he.symm), hk]

theorem setNodeDirty_dirty (ns : List PNode) (i : Nat) (n : PNode)
    (h : ns[i]? = some n) (hd : n.dirtyLayout = true) :
    setNodeDirty ns i = ns := by
  unfold setNodeDirty
  rw [h]
  show ns.set i { n with dirtyLayout := true } = ns
  rw [dirty_absorb n hd]
  exact list_set_self ns i n h

theorem insertDirty_idem (s : List Nat) (i : Nat) :
    insertDirty (insertDirty s i) i = insertDirty s i := by
  unfold insertDirty
  by_cases h : i ∈ s <;> simp [h]

theorem mark_succ_none (fuel : Nat) (p : Pipeline) (i : Nat)
    (h : p.nodes[i]? = none) : mark_needs_layout (fuel + 1) p i = p := by
  rw [mark_needs_layout, h]

theorem mark_succ_boundary (fuel : Nat) (p : Pipeline) (i : Nat) (n : PNode)
    (h : p.nodes[i]? = some n) (hb : n.isRelayoutBoundary = true) :
    mark_needs_layout (fuel + 1) p i
      = ⟨setNodeDirty p.nodes i, insertDirty p.dirtySet i⟩ := by
  obtain ⟨np, nb, nd⟩ := n
  simp only [PNode.isRelayoutBoundary] at hb
  subst hb
  rw [mark_needs_layout, h]

theorem mark_succ_root (fuel : Nat) (p : Pipeline) (i : Nat) (n : PNode)
    (h : p.nodes[i]? = some n) (hb : n.isRelayoutBoundary = false)
    (hp : n.parent = none) :
    mark_needs_layout (fuel + 1) p i
      = ⟨setNodeDirty p.nodes i, insertDirty p.dirtySet i⟩ := by
  obtain ⟨np, nb, nd⟩ := n
  simp only [PNode.isRelayoutBoundary] at hb
  simp only [PNode.parent] at hp
  subst hb; subst hp
  rw [mark_needs_layout, h]

theorem mark_succ_parent (fuel : Nat) (p : Pipeline) (i j : Nat) (n : PNode)
    (h : p.nodes[i]? = some n) (hb : n.isRelayoutBoundary = false)
    (hp : n.parent = some j) :
    mark_needs_layout (fuel + 1) p i
      = mark_needs_layout fuel ⟨setNodeDirty p.nodes i, p.dirtySet⟩ j := by
  obtain ⟨np, nb, nd⟩ := n
  simp only [PNode.isRelayoutBoundary] at hb
  simp only [PNode.parent] at hp
  subst hb; subst hp
  rw [mark_needs_layout, h]

theorem mark_preserves (fuel : Nat) :
    ∀ (p : Pipeline) (j k : Nat),
      (mark_needs_layout fuel p j).nodes[k]? = p.nodes[k]? ∨
      ∃ a, p.nodes[k]? = some a ∧
        (mark_needs_layout fuel p j).nodes[k]? = some { a with dirtyLayout := true } := by
  induction fuel with
  | zero => intro p j k; left; rfl
  | succ fuel ih =>
    intro p j k
    cases hj : p.nodes[j]? with
    | none => left; rw [mark_succ_none fuel p j hj]
    | some n =>
      have hstep :
          (setNodeDirty p.nodes j)[k]? = p.nodes[k]? ∨
          ∃ a, p.nodes[k]? = some a ∧
            (setNodeDirty p.nodes j)[k]? = some { a with dirtyLayout := true } := by
        rw [setNodeDirty_getElem]
        by_cases hk : k = j
        · subst hk; right; exact ⟨n, hj, by rw [if_pos rfl, hj]; rfl⟩
        · left; rw [if_neg hk]
      cases hb : n.isRelayoutBoundary with
      | true =>
        rw [mark_succ_boundary fuel p j n hj hb]
        exact hstep
      | false =>
        cases hp : n.parent with
        | none =>
          rw [mark_succ_root fuel p j n hj hb hp]
          exact hstep
        | some jp =>
          rw [mark_succ_parent fuel p j jp n hj hb hp]
          rcases ih ⟨setNodeDirty p.nodes j, p.dirtySet⟩ jp k with heq | ⟨a, ha, hres⟩
          · rw [heq]
            exact hstep
          · rcases hstep with hs | ⟨b, hb2, hs⟩
            · rw [hs] at ha
              right; exact ⟨a, ha, hres⟩
            · rw [hs] at ha
              cases ha
              right
              refine ⟨b, hb2, ?_⟩
              rw [hres]

theorem update_boundary (n : PNode) :
    ({ n with dirtyLayout := true } : PNode).isRelayoutBoundary
      = n.isRelayoutBoundary := by
  cases n; rfl

theorem update_parent (n : PNode) :
    ({ n with dirtyLayout := true } : PNode).parent = n.parent := by
  cases n; rfl

theorem mark_preserves_dirty (fuel : Nat) (p : Pipeline) (j k : Nat) (a : PNode)
    (h : p.nodes[k]? = some a) (hd : a.dirtyLayout = true) :
    (mark_needs_layout fuel p j).nodes[k]? = some a := by
  rcases mark_preserves fuel p j k with heq | ⟨b, hb, hres⟩
  · rw [heq, h]
  · rw [h] at hb
    cases hb
    rw [hres, dirty_absorb a hd]

theorem mark_idem (fuel : Nat) :
    ∀ (p : Pipeline) (i : Nat),
      mark_needs_layout fuel (mark_needs_layout fuel p i) i
        = mark_needs_layout fuel p i := by
  induction fuel with
  | zero => intro p i; rfl
  | succ fuel ih =>
    intro p i
    cases hj : p.nodes[i]? with
    | none =>
      rw [mark_succ_none fuel p i hj, mark_succ_none fuel p i hj]
    | some n =>
      have hn1 : (setNodeDirty p.nodes i)[i]? = some { n with dirtyLayout := true } := by
        rw [setNodeDirty_getElem, if_pos rfl, hj]; rfl
      cases hb : n.isRelayoutBoundary with
      | true =>
        rw [mark_succ_boundary fuel p i n hj hb]
        rw [mark_succ_boundary fuel _ i _ hn1 (by rw [update_boundary]; exact hb)]
        congr 1
        · exact setNodeDirty_dirty _ i _ hn1 rfl
        · exact insertDirty_idem _ i
      | false =>
        cases hp : n.parent with
        | none =>
          rw [mark_succ_root fuel p i n hj hb hp]
          rw [mark_succ_root fuel _ i _ hn1 (by rw [update_boundary]; exact hb)
            (by rw [update_parent]; exact hp)]
          congr 1
          · exact setNodeDirty_dirty _ i _ hn1 rfl
          · exact insertDirty_idem _ i
        | some jp =>
          rw [mark_succ_parent fuel p i jp n hj hb hp]
          have h2 : (mark_needs_layout fuel ⟨setNodeDirty p.nodes i, p.dirtySet⟩ jp).nodes[i]?
              = some { n with dirtyLayout := true } :=
            mark_preserves_dirty fuel _ jp i _ hn1 rfl
          rw [mark_succ_parent fuel _ i jp _ h2 (by rw [update_boundary]; exact hb)
            (by rw [update_parent]; exact hp)]
          rw [setNodeDirty_dirty _ i _ h2 rfl]
          exact ih _ jp

theorem perform_layout_mk (sbp : Bool) (pref sz : SSize) (children : List RTree)
    (c : SBoxConstraints) :
    perform_layout (.mk sbp pref sz children) c
      = .mk sbp pref (if sbp then sz else c.constrain pref)
          (children.map fun ch => perform_layout ch (childConstraints c)) := by
  rw [perform_layout]
  simp [List.map_attach]

theorem constrain_satisfies (c : SBoxConstraints) (s : SSize)
    (h : c.isWellFormed = true) :
    c.isSatisfiedBy (c.constrain s) = true := by
  simp only [SBoxConstraints.isWellFormed, Bool.and_eq_true, decide_eq_true_eq] at h
  simp only [SBoxConstraints.isSatisfiedBy, SBoxConstraints.constrain,
    Bool.and_eq_true, decide_eq_true_eq]
  omega

theorem resizeSize_satisfies (c : SBoxConstraints) (h : c.isWellFormed = true) :
    c.isSatisfiedBy (resizeSize c) = true := by
  simp only [SBoxConstraints.isWellFormed, Bool.and_eq_true, decide_eq_true_eq] at h
  simp only [SBoxConstraints.isSatisfiedBy, resizeSize,
    Bool.and_eq_true, decide_eq_true_eq]
  omega

/-! ## Claim theorems -/

/-- Claim C1: for every `RenderBox` node and every position already
transformed into the node's local coordinate space, `hit_test` follows
exactly the documented algorithm — it proceeds only when the position lies
within the node's resolved bounds; the children's test runs first, threading
the accumulator, and the node's own test can decide the outcome only when no
child absorbed the hit; when either absorbs, an entry for this node is
appended to the accumulator and the call returns true; in every other case
the call returns false and appends no entry of its own. -/
theorem hit_test_follows_algorithm (self : RenderBoxNode)
    (result : BoxHitTestResult) (pos : Offset) :
    ((hit_test self result pos).2
      = (self.size_contains pos
          && ((self.hitTestChildren result pos).2 || self.hitTestSelf pos)))
  ∧ ((hit_test self result pos).1
      = if self.size_contains pos then
          (if (self.hitTestChildren result pos).2 || self.hitTestSelf pos then
            (self.hitTestChildren result pos).1.add ⟨self.id, pos⟩
          else (self.hitTestChildren result pos).1)
        else result) := by
  unfold hit_test
  by_cases h : self.size_contains pos <;>
    simp only [h, Bool.true_and, Bool.false_and, if_true, if_false] <;>
    cases h2 : ((self.hitTestChildren result pos).2 || self.hitTestSelf pos) <;>
    simp [h2]

/-- Claim C2: after the layout step completes under well-formed constraints
`C`, the node's resolved size satisfies `C` (min ≤ size ≤ max on each axis).
Stated for the sanctioned invocation path `layout` — the source's doc comment
on `perform_layout` directs every caller to `layout`, which performs the
resize step for a sized-by-parent node and then `perform_layout`. -/
theorem layout_size_satisfies_constraints (n : RTree) (c : SBoxConstraints)
    (h : c.isWellFormed = true) :
    c.isSatisfiedBy (layout n c).size = true := by
  obtain ⟨sbp, pref, sz, children⟩ := n
  cases sbp with
  | false =>
    show c.isSatisfiedBy (perform_layout (.mk false pref sz children) c).size = true
    rw [perform_layout_mk]
    simp only [RTree.size, if_false]
    exact constrain_satisfies c pref h
  | true =>
    show c.isSatisfiedBy
      (perform_layout (performResize (.mk true pref sz children) c) c).size = true
    rw [performResize, perform_layout_mk]
    simp only [RTree.size, if_true]
    exact resizeSize_satisfies c h

/-- Witness for claim C2 at a concrete node and concrete well-formed
constraints. -/
theorem layout_size_satisfies_constraints_witness :
    (SBoxConstraints.mk 10 100 20 30).isWellFormed = true
  ∧ (SBoxConstraints.mk 10 100 20 30).isSatisfiedBy
      (layout (.mk false ⟨250, 7⟩ ⟨0, 0⟩ []) (SBoxConstraints.mk 10 100 20 30)).size
      = true :=
  ⟨by decide,
   layout_size_satisfies_constraints (.mk false ⟨250, 7⟩ ⟨0, 0⟩ [])
     (SBoxConstraints.mk 10 100 20 30) (by decide)⟩

/-- Claim C3: `perform_layout` satisfies its postcondition — when
`sized_by_parent()` is false the call resolves the node's own size (the
node's sizing rule applied to the incoming constraints) and lays out every
child the node owns, handing each the sub-constraints computed for it; when
`sized_by_parent()` is true the call does not change the node's own size. -/
theorem perform_layout_postcondition (n : RTree) (c : SBoxConstraints) :
    (n.sizedByParent = false →
      (perform_layout n c).size = c.constrain n.preferred
        ∧ (perform_layout n c).children
            = n.children.map (fun ch => perform_layout ch (childConstraints c)))
  ∧ (n.sizedByParent = true → (perform_layout n c).size = n.size) := by
  obtain ⟨sbp, pref, sz, children⟩ := n
  rw [perform_layout_mk]
  cases sbp with
  | false =>
    exact ⟨fun _ => ⟨rfl, rfl⟩, fun hf => by simp [RTree.sizedByParent] at hf⟩
  | true =>
    exact ⟨fun hf => by simp [RTree.sizedByParent] at hf, fun _ => rfl⟩

/-- Witness for claim C3: at a node that is not sized by parent, both parts
of the postcondition's first branch hold; the appended conjunct applies the
second branch at a sized-by-parent node. -/
theorem perform_layout_postcondition_witness :
    ((perform_layout (.mk false ⟨8, 8⟩ ⟨1, 1⟩ [.mk true ⟨2, 2⟩ ⟨3, 3⟩ []])
        (SBoxConstraints.mk 0 6 0 6)).size
      = (SBoxConstraints.mk 0 6 0 6).constrain ⟨8, 8⟩
    ∧ (perform_layout (.mk false ⟨8, 8⟩ ⟨1, 1⟩ [.mk true ⟨2, 2⟩ ⟨3, 3⟩ []])
        (SBoxConstraints.mk 0 6 0 6)).children
      = [RTree.mk true ⟨2, 2⟩ ⟨3, 3⟩ []].map
          (fun ch => perform_layout ch (childConstraints (SBoxConstraints.mk 0 6 0 6))))
  ∧ (perform_layout (.mk true ⟨2, 2⟩ ⟨3, 3⟩ []) (SBoxConstraints.mk 0 6 0 6)).size
      = ⟨3, 3⟩ :=
  ⟨(perform_layout_postcondition (.mk false ⟨8, 8⟩ ⟨1, 1⟩ [.mk true ⟨2, 2⟩ ⟨3, 3⟩ []])
      (SBoxConstraints.mk 0 6 0 6)).1 rfl,
   (perform_layout_postcondition (.mk true ⟨2, 2⟩ ⟨3, 3⟩ [])
      (SBoxConstraints.mk 0 6 0 6)).2 rfl⟩

/-- Claim C4: `mark_needs_layout` is idempotent — calling it `k + 1` times
(any positive number of calls) on the same node before the next layout flush
leaves the arena (the nodes with their dirty flags) and the pipeline owner's
dirty set in exactly the state one call leaves them in. -/
theorem mark_needs_layout_idempotent (fuel i k : Nat) (p : Pipeline) :
    iterMark fuel i (k + 1) p = mark_needs_layout fuel p i := by
  induction k with
  | zero => rfl
  | succ k ih =>
    show mark_needs_layout fuel (iterMark fuel i (k + 1) p) i
      = mark_needs_layout fuel p i
    rw [ih]
    exact mark_idem fuel p i

/-- Claim C5: the projection from `SliverConstraints` to `BoxConstraints` is
total (every input yields a `BoxConstraints` value), deterministic (equal
inputs yield equal outputs), and side-effect-free (the receiver observed
after the call is the one passed in). -/
theorem as_box_constrains_total_deterministic (s1 s2 : SliverConstraints)
    (h : s1 = s2) :
    (∃ b : BoxConstraints, s1.as_box_constrains = b)
  ∧ s1.as_box_constrains = s2.as_box_constrains
  ∧ (as_box_constrains_call s1).1 = s1 :=
  ⟨⟨{}, rfl⟩, by rw [h], rfl⟩

/-- Witness for claim C5 at the concrete `SliverConstraints` value. -/
theorem as_box_constrains_total_deterministic_witness :
    (∃ b : BoxConstraints, SliverConstraints.as_box_constrains {} = b)
  ∧ SliverConstraints.as_box_constrains {} = SliverConstraints.as_box_constrains {}
  ∧ (as_box_constrains_call {}).1 = ({} : SliverConstraints) :=
  as_box_constrains_total_deterministic {} {} rfl

/-- Claim C6: per node, the layout dirty flag follows exactly the documented
state machine — the only operation that turns a clean flag dirty is
`mark_needs_layout`, the only operation that turns a dirty flag clean is a
scheduler-invoked `perform_layout` with well-formed constraints (and those
two operations do perform their transitions), and every other protocol
operation leaves the flag where it was. -/
theorem dirty_layout_state_machine (s : NodeLState) (op : RenderOp) :
    (s.dirtyLayout = false → (stepOp s op).dirtyLayout = true →
        op = RenderOp.markNeedsLayoutOp)
  ∧ (s.dirtyLayout = true → (stepOp s op).dirtyLayout = false →
        ∃ c, op = RenderOp.schedulerPerformLayout c ∧ c.isWellFormed = true)
  ∧ ((stepOp s RenderOp.markNeedsLayoutOp).dirtyLayout = true)
  ∧ (∀ c : SBoxConstraints, c.isWellFormed = true →
        (stepOp s (RenderOp.schedulerPerformLayout c)).dirtyLayout = false) := by
  refine ⟨?_, ?_, rfl, ?_⟩
  · intro h1 h2
    cases op with
    | markNeedsLayoutOp => rfl
    | schedulerPerformLayout c =>
      by_cases hwf : c.isWellFormed = true
      · simp [stepOp, hwf] at h2
      · simp [stepOp, hwf] at h2
        rw [h1] at h2; exact absurd h2 (by simp)
    | markNeedsPaintOp => rw [show (stepOp s .markNeedsPaintOp).dirtyLayout
        = s.dirtyLayout from rfl] at h2; rw [h1] at h2; exact absurd h2 (by simp)
    | hitTestQuery pos => rw [show (stepOp s (.hitTestQuery pos)).dirtyLayout
        = s.dirtyLayout from rfl] at h2; rw [h1] at h2; exact absurd h2 (by simp)
    | handleEventDefault => rw [show (stepOp s .handleEventDefault).dirtyLayout
        = s.dirtyLayout from rfl] at h2; rw [h1] at h2; exact absurd h2 (by simp)
  · intro h1 h2
    cases op with
    | markNeedsLayoutOp => simp [stepOp] at h2
    | schedulerPerformLayout c =>
      by_cases hwf : c.isWellFormed = true
      · exact ⟨c, rfl, hwf⟩
      · simp [stepOp, hwf] at h2
        rw [h1] at h2; exact absurd h2 (by simp)
    | markNeedsPaintOp => rw [show (stepOp s .markNeedsPaintOp).dirtyLayout
        = s.dirtyLayout from rfl] at h2; rw [h1] at h2; exact absurd h2 (by simp)
    | hitTestQuery pos => rw [show (stepOp s (.hitTestQuery pos)).dirtyLayout
        = s.dirtyLayout from rfl] at h2; rw [h1] at h2; exact absurd h2 (by simp)
    | handleEventDefault => rw [show (stepOp s .handleEventDefault).dirtyLayout
        = s.dirtyLayout from rfl] at h2; rw [h1] at h2; exact absurd h2 (by simp)
  · intro c hwf
    simp [stepOp, hwf]

/-- Witness for claim C6: on a concrete dirty node, a scheduler-invoked
`perform_layout` under concrete well-formed constraints clears the flag. -/
theorem dirty_layout_state_machine_witness :
    (stepOp ⟨true, false, ⟨9, 9⟩⟩
      (RenderOp.schedulerPerformLayout (SBoxConstraints.mk 1 5 2 6))).dirtyLayout
      = false :=
  (dirty_layout_state_machine ⟨true, false, ⟨9, 9⟩⟩
    (RenderOp.schedulerPerformLayout (SBoxConstraints.mk 1 5 2 6))).2.2.2
    (SBoxConstraints.mk 1 5 2 6) (by decide)

/-- Claim C7: for nodes whose `sized_by_parent()` is true, the size the
resize step resolves is a pure function of the constraints alone — two
invocations under equal well-formed constraints resolve equal sizes, however
the two nodes' children or any other per-node state differ. -/
theorem resize_pure_in_constraints (t1 t2 : RTree) (c1 c2 : SBoxConstraints)
    (h1 : t1.sizedByParent = true) (h2 : t2.sizedByParent = true)
    (_hwf : c1.isWellFormed = true) (hc : c1 = c2) :
    (performResize t1 c1).size = (performResize t2 c2).size := by
  subst hc
  obtain ⟨sbp1, p1, s1, ch1⟩ := t1
  obtain ⟨sbp2, p2, s2, ch2⟩ := t2
  rfl

/-- Witness for claim C7 at two concrete sized-by-parent nodes that differ
in preferred size, recorded size, and children. -/
theorem resize_pure_in_constraints_witness :
    (performResize (.mk true ⟨1, 1⟩ ⟨2, 2⟩ []) (SBoxConstraints.mk 0 40 0 50)).size
      = (performResize (.mk true ⟨3, 3⟩ ⟨4, 4⟩ [.mk true ⟨0, 0⟩ ⟨0, 0⟩ []])
          (SBoxConstraints.mk 0 40 0 50)).size :=
  resize_pure_in_constraints (.mk true ⟨1, 1⟩ ⟨2, 2⟩ [])
    (.mk true ⟨3, 3⟩ ⟨4, 4⟩ [.mk true ⟨0, 0⟩ ⟨0, 0⟩ []])
    (SBoxConstraints.mk 0 40 0 50) (SBoxConstraints.mk 0 40 0 50)
    rfl rfl (by decide) rfl

/-- Claim C8: two sliver constraints that agree on the box-relevant fields
(the cross-axis box constraints) and differ only elsewhere (the scroll-axis
extent) project to equal box constraints. -/
theorem sliver_projection_box_fields (s1 s2 : SSliverConstraints)
    (h : s1.crossAxis = s2.crossAxis) :
    s1.asBoxConstraints = s2.asBoxConstraints := h

/-- Witness for claim C8 at two concrete sliver constraints with different
scroll extents and the same cross-axis box constraints. -/
theorem sliver_projection_box_fields_witness :
    (SSliverConstraints.mk 10 (SBoxConstraints.mk 1 2 3 4)).asBoxConstraints
      = (SSliverConstraints.mk 99 (SBoxConstraints.mk 1 2 3 4)).asBoxConstraints :=
  sliver_projection_box_fields (SSliverConstraints.mk 10 (SBoxConstraints.mk 1 2 3 4))
    (SSliverConstraints.mk 99 (SBoxConstraints.mk 1 2 3 4)) rfl

/-- Claim C9: `is_repaint_boundary` is fixed for a node's lifetime — its
value is unchanged by any sequence of protocol operations, it is identical
for any two nodes dispatched through the same concrete kind (it takes no
receiver), and the default implementation returns false. -/
theorem is_repaint_boundary_fixed (impl : RenderObjectImpl)
    (s s1 s2 : NodeLState) (ops : List RenderOp) :
    isRepaintBoundaryOf impl (stepOps s ops) = isRepaintBoundaryOf impl s
  ∧ isRepaintBoundaryOf impl s1 = isRepaintBoundaryOf impl s2
  ∧ isRepaintBoundaryOf defaultRenderObject s = false :=
  ⟨rfl, rfl, rfl⟩

/-- Claim C10: `perform_layout` as declared receives the node by shared
reference and returns nothing, so the node observed after a call — its
dirty-layout flag, cached constraints, and resolved size — is exactly the
node passed in: the declared operation cannot record a resolved size or
clear the dirty-layout flag. -/
theorem perform_layout_decl_receiver_unchanged {C : Type}
    (n : RenderNodeFields) (c : C) :
    (perform_layout_decl n c).1.dirtyLayout = n.dirtyLayout
  ∧ (perform_layout_decl n c).1.cachedConstraints = n.cachedConstraints
  ∧ (perform_layout_decl n c).1.resolvedSize = n.resolvedSize
  ∧ (perform_layout_decl n c).1 = n :=
  ⟨rfl, rfl, rfl, rfl⟩

end XUI
